import Mathlib

/-!
Shallow embedding of the label-tiles backend core in Lean 4, for checking the
natural-language specification against the code.

Embedded sources:
* `backend/sliding_window.py` — window offset planning, contributing-tile
  computation, bbox translation/clipping, window-image compositing, and the
  dataset-assembly pass (`process_sliding_windows`).
* `backend/tile_downloader.py` — per-tile download outcome and the progress
  stream generator (`download_tiles_with_progress`), plus the SSE wrapper from
  `backend/export.py` that terminates the stream with a completion event.

Modelling conventions:
* Python ints are `ℤ`; Python floats (bbox coordinates) are `ℚ` (exact
  arithmetic; the code performs no operation whose float rounding the claims
  depend on).
* The filesystem and network are oracles passed as explicit function
  arguments: `src_exists : String → Bool` models `Path.exists` for original
  tile files, `readable : ℤ × ℤ × ℤ → Bool` models "the tile file
  `{z}_{tx}_{ty}.png` exists and PIL can open and decode it" (the code treats
  a missing file and a decode failure identically, returning `None`), and
  `fetch : Tile → HttpOutcome` models the HTTP response for a tile request.
* `Path(file_name).name` and `parse_tile_filename` are abstracted: a source
  image carries its `basename` and the parse result `coords?` (`none` models a
  `ValueError` from `parse_tile_filename`).  Both phases of
  `process_sliding_windows` parse the same basename, so a single field is
  faithful.
* The async completion order of `asyncio.as_completed` is nondeterministic; it
  is modelled as an explicit `completion_order` list, constrained to be a
  permutation of the input tiles where a claim needs it.
-/

namespace LabelTiles

/-- Python's `max` on two rationals, written with an explicit `if` so that it
is definitionally transparent (`backend/sliding_window.py` line 145). -/
def fmax (a b : ℚ) : ℚ := if a ≤ b then b else a

/-- Python's `min` on two rationals, written with an explicit `if`
(`backend/sliding_window.py` line 147). -/
def fmin (a b : ℚ) : ℚ := if a ≤ b then a else b

/-- Python `range(0, stop, step)` for a positive `step`: the ascending list
`[0, step, 2*step, …]` of elements `< stop`.  (`range` raises for `step = 0`;
the claims only use `step ≥ 1`.  For `step > 0` the length is
`max 0 ⌈stop/step⌉`, which is what the expression below computes, `/` being
integer division on `ℤ`.) -/
def pyRangeUp (stop step : ℤ) : List ℤ :=
  (List.range ((stop + step - 1) / step).toNat).map (fun (k : ℕ) => (k : ℤ) * step)

/-- `generate_window_offsets` (`backend/sliding_window.py` lines 66–78):
row-major double loop (`oy` outer, `ox` inner) over `range(0, tile_size,
stride)`, skipping `(0, 0)`. -/
def generate_window_offsets (tile_size stride : ℤ) : List (ℤ × ℤ) :=
  (pyRangeUp tile_size stride).flatMap (fun oy =>
    (pyRangeUp tile_size stride).filterMap (fun ox =>
      if ox = 0 ∧ oy = 0 then none else some (ox, oy)))

/-- One entry of the `get_required_tiles` result: tile coordinate `(z,tx,ty)`,
source-crop top-left `(src_x, src_y)`, destination-paste top-left
`(dst_x, dst_y)`. -/
structure SourceChunkRef where
  z : ℤ
  tx : ℤ
  ty : ℤ
  src_x : ℤ
  src_y : ℤ
  dst_x : ℤ
  dst_y : ℤ
deriving DecidableEq

/-- `get_required_tiles` (`backend/sliding_window.py` lines 81–117). -/
def get_required_tiles (z x y offset_x offset_y tile_size : ℤ) :
    List SourceChunkRef :=
  let right_in_original := tile_size - offset_x
  let bottom_in_original := tile_size - offset_y
  (if 0 < right_in_original ∧ 0 < bottom_in_original then
    [⟨z, x, y, offset_x, offset_y, 0, 0⟩] else []) ++
  (if 0 < offset_x ∧ 0 < bottom_in_original then
    [⟨z, x + 1, y, 0, offset_y, right_in_original, 0⟩] else []) ++
  (if 0 < offset_y ∧ 0 < right_in_original then
    [⟨z, x, y + 1, offset_x, 0, 0, bottom_in_original⟩] else []) ++
  (if 0 < offset_x ∧ 0 < offset_y then
    [⟨z, x + 1, y + 1, 0, 0, right_in_original, bottom_in_original⟩] else [])

/-- The signed translation from a contributing tile's pixel frame into window
space, as computed in `process_sliding_windows` lines 386–387:
`tile_offset = (src_x - dst_x, src_y - dst_y)`. -/
def placement_offset (rt : SourceChunkRef) : ℤ × ℤ :=
  (rt.src_x - rt.dst_x, rt.src_y - rt.dst_y)

/-- `translate_and_clip_bbox` (`backend/sliding_window.py` lines 120–154).
A bbox is `(x, y, w, h)`. -/
def translate_and_clip_bbox (bbox : ℚ × ℚ × ℚ × ℚ)
    (offset_x offset_y tile_size : ℤ) : Option (ℚ × ℚ × ℚ × ℚ) :=
  let bx := bbox.1
  let b_y := bbox.2.1
  let bw := bbox.2.2.1
  let bh := bbox.2.2.2
  let new_x := bx - (offset_x : ℚ)
  let new_y := b_y - (offset_y : ℚ)
  let x1 := fmax 0 new_x
  let y1 := fmax 0 new_y
  let x2 := fmin (tile_size : ℚ) (new_x + bw)
  let y2 := fmin (tile_size : ℚ) (new_y + bh)
  if x2 ≤ x1 ∨ y2 ≤ y1 then none
  else some (x1, y1, x2 - x1, y2 - y1)

/-- The retargeting rule as the specification words it (§4.4): translate the
bbox by the placement offset, clip the corners to `[0,T)×[0,T)` with
`x1 = max(0,x)`, `y1 = max(0,y)`, `x2 = min(T,x+w)`, `y2 = min(T,y+h)`, keep
`[x1, y1, x2-x1, y2-y1]` exactly when `x2 > x1` and `y2 > y1`. -/
def retarget_spec (bbox : ℚ × ℚ × ℚ × ℚ)
    (offset_x offset_y tile_size : ℤ) : Option (ℚ × ℚ × ℚ × ℚ) :=
  let x := bbox.1 - (offset_x : ℚ)
  let y := bbox.2.1 - (offset_y : ℚ)
  let x1 := fmax 0 x
  let y1 := fmax 0 y
  let x2 := fmin (tile_size : ℚ) (x + bbox.2.2.1)
  let y2 := fmin (tile_size : ℚ) (y + bbox.2.2.2)
  if x1 < x2 ∧ y1 < y2 then some (x1, y1, x2 - x1, y2 - y1) else none

/-- One compositing chunk of `create_window_image` (`backend/sliding_window.py`
lines 180–197): source tile `(tx, ty)`, crop box `(left, top, right, bottom)`
in source-tile coordinates, and paste position `(paste_x, paste_y)` in the
output window. -/
structure Chunk where
  tx : ℤ
  ty : ℤ
  left : ℤ
  top : ℤ
  right : ℤ
  bottom : ℤ
  paste_x : ℤ
  paste_y : ℤ
deriving DecidableEq

/-- The four candidate chunks, in source order (`backend/sliding_window.py`
lines 180–197). -/
def window_chunks (x y offset_x offset_y tile_size : ℤ) : List Chunk :=
  [⟨x, y, offset_x, offset_y, tile_size, tile_size, 0, 0⟩,
   ⟨x + 1, y, 0, offset_y, offset_x, tile_size, tile_size - offset_x, 0⟩,
   ⟨x, y + 1, offset_x, 0, tile_size, offset_y, 0, tile_size - offset_y⟩,
   ⟨x + 1, y + 1, 0, 0, offset_x, offset_y,
    tile_size - offset_x, tile_size - offset_y⟩]

/-- A chunk is pasted unless its crop has zero (or negative) width or height:
the loop `continue`s when `right <= left or bottom <= top` (line 203). -/
def chunk_kept (c : Chunk) : Bool :=
  decide (c.left < c.right) && decide (c.top < c.bottom)

/-- Whether output pixel `(u, v)` lies in the region that chunk `c` pastes:
`c` covers columns `[paste_x, paste_x + (right-left))` and rows
`[paste_y, paste_y + (bottom-top))`. -/
def chunk_covers (c : Chunk) (u v : ℤ) : Bool :=
  decide (c.paste_x ≤ u) && decide (u < c.paste_x + (c.right - c.left)) &&
  decide (c.paste_y ≤ v) && decide (v < c.paste_y + (c.bottom - c.top))

/-- The loop body of `create_window_image` (lines 199–217): walk the chunk
list; skip zero-area chunks; return `none` as soon as a needed tile is
missing or undecodable; otherwise record the pasted chunks in order.  The
pixel content of the composite is abstracted as the list of pasted chunks. -/
def compose_chunks (readable : ℤ × ℤ × ℤ → Bool) (z : ℤ) :
    List Chunk → Option (List Chunk)
  | [] => some []
  | c :: rest =>
    if chunk_kept c then
      if readable (z, c.tx, c.ty) then
        (compose_chunks readable z rest).map (fun l => c :: l)
      else none
    else compose_chunks readable z rest

/-- `create_window_image` (`backend/sliding_window.py` lines 157–219). -/
def create_window_image (readable : ℤ × ℤ × ℤ → Bool)
    (z x y offset_x offset_y tile_size : ℤ) : Option (List Chunk) :=
  compose_chunks readable z (window_chunks x y offset_x offset_y tile_size)

/-- A source COCO annotation record, as read by `process_sliding_windows`.
Optional fields model dictionary keys the code reads with `.get(…, default)`. -/
structure SrcAnn where
  id : ℤ
  image_id : ℤ
  category_id : ℤ
  bbox : ℚ × ℚ × ℚ × ℚ
  seg? : Option (List (List ℚ))
  area? : Option ℚ
  iscrowd? : Option ℤ
  noun_phrase? : Option String
deriving DecidableEq

/-- A source COCO image record.  `basename` is `Path(file_name).name`;
`coords?` is the result of `parse_tile_filename(basename)` (`none` models the
`ValueError` branch). -/
structure SrcImage where
  id : ℤ
  basename : String
  coords? : Option (ℤ × ℤ × ℤ)
  width : ℤ
  height : ℤ
deriving DecidableEq

/-- A COCO category record, carried through the assembler unchanged. -/
structure Category where
  id : ℤ
  name : String
deriving DecidableEq

/-- The source corpus (`annotations.json`). -/
structure CocoData where
  images : List SrcImage
  anns : List SrcAnn
  categories : List Category
deriving DecidableEq

/-- An output image record (`new_images` entries). -/
structure NewImage where
  id : ℕ
  file_name : String
  width : ℤ
  height : ℤ
deriving DecidableEq

/-- An output annotation record (`new_annotations` entries). -/
structure NewAnn where
  id : ℕ
  image_id : ℕ
  category_id : ℤ
  bbox : ℚ × ℚ × ℚ × ℚ
  seg : List (List ℚ)
  area : ℚ
  iscrowd : ℤ
  noun_phrase : String
deriving DecidableEq

/-- The mutable state of a `process_sliding_windows` run: the output record
lists, the two id counters, the statistics counters, and the files written to
the output directory (copied originals and saved windows, in order). -/
structure RunState where
  new_images : List NewImage
  new_annotations : List NewAnn
  new_image_id : ℕ
  new_annotation_id : ℕ
  originals_copied : ℕ
  windows_created : ℕ
  windows_skipped : ℕ
  annotations_created : ℕ
  files : List String
deriving DecidableEq

/-- `annotations_by_image.get(image_id, [])`: the dict groups annotations by
`image_id` preserving order, so lookup is an order-preserving filter
(`backend/sliding_window.py` lines 282–287). -/
def anns_of (anns : List SrcAnn) (iid : ℤ) : List SrcAnn :=
  anns.filter (fun a => a.image_id == iid)

/-- `tile_to_image_id.get((z,x,y))` (lines 268–277): the dict is filled by
iterating over `coco_data["images"]` with later entries overwriting earlier
ones, so lookup returns the id of the **last** image whose parsed coordinates
match. -/
def tile_to_image_id (images : List SrcImage) (key : ℤ × ℤ × ℤ) : Option ℤ :=
  (images.filterMap (fun img =>
    match img.coords? with
    | some c => if c = key then some img.id else none
    | none => none)).getLast?

/-- The default segmentation polygon built from a bbox `(bx, b_y, bw, bh)`:
the four corners, counterclockwise as written in the code (lines 327–332 and
401–406). -/
def bbox_polygon (bx b_y bw bh : ℚ) : List (List ℚ) :=
  [[bx, b_y, bx + bw, b_y, bx + bw, b_y + bh, bx, b_y + bh]]

/-- Copying one original annotation (lines 325–345). -/
def copy_ann_step (win_image_id : ℕ) (s : RunState) (a : SrcAnn) : RunState :=
  let bx := a.bbox.1
  let b_y := a.bbox.2.1
  let bw := a.bbox.2.2.1
  let bh := a.bbox.2.2.2
  { s with
    new_annotations := s.new_annotations ++
      [{ id := s.new_annotation_id
         image_id := win_image_id
         category_id := a.category_id
         bbox := a.bbox
         seg := a.seg?.getD (bbox_polygon bx b_y bw bh)
         area := a.area?.getD (bw * bh)
         iscrowd := a.iscrowd?.getD 0
         noun_phrase := a.noun_phrase?.getD "" }]
    new_annotation_id := s.new_annotation_id + 1
    annotations_created := s.annotations_created + 1 }

/-- Phase 1 body: copy one original tile and its annotations (lines 303–349).
If the source file is missing only a warning is printed and nothing changes. -/
def copy_original_step (src_exists : String → Bool) (anns : List SrcAnn)
    (st : RunState) (img : SrcImage) : RunState :=
  if src_exists img.basename then
    let st1 := { st with
      files := st.files ++ [img.basename]
      originals_copied := st.originals_copied + 1
      new_images := st.new_images ++
        [{ id := st.new_image_id
           file_name := img.basename
           width := img.width
           height := img.height }] }
    let st2 := (anns_of anns img.id).foldl (copy_ann_step st.new_image_id) st1
    { st2 with new_image_id := st.new_image_id + 1 }
  else st

/-- Collecting one source annotation into a window (lines 383–418): translate
and clip its bbox by the contributing tile's placement offset; on success
append a record carrying the running temporary annotation id. -/
def collect_ann_step (tile_size : ℤ) (win_image_id : ℕ) (toff : ℤ × ℤ)
    (acc : List NewAnn × ℕ) (a : SrcAnn) : List NewAnn × ℕ :=
  match translate_and_clip_bbox a.bbox toff.1 toff.2 tile_size with
  | none => acc
  | some nb =>
    (acc.1 ++
      [{ id := acc.2
         image_id := win_image_id
         category_id := a.category_id
         bbox := nb
         seg := bbox_polygon nb.1 nb.2.1 nb.2.2.1 nb.2.2.2
         area := nb.2.2.1 * nb.2.2.2
         iscrowd := 0
         noun_phrase := a.noun_phrase?.getD "" }],
     acc.2 + 1)

/-- Collecting the annotations of one contributing tile (lines 376–418):
look the tile up among the labeled images; if unlabeled, contribute nothing. -/
def collect_tile_step (images : List SrcImage) (anns : List SrcAnn)
    (tile_size : ℤ) (win_image_id : ℕ)
    (acc : List NewAnn × ℕ) (rt : SourceChunkRef) : List NewAnn × ℕ :=
  match tile_to_image_id images (rt.z, rt.tx, rt.ty) with
  | none => acc
  | some tid =>
    (anns_of anns tid).foldl
      (collect_ann_step tile_size win_image_id (placement_offset rt)) acc

/-- The full annotation-collection pass for one window (lines 373–418),
returning the collected records and the final temporary annotation id. -/
def collect_window_annotations (images : List SrcImage) (anns : List SrcAnn)
    (required : List SourceChunkRef) (tile_size : ℤ)
    (win_image_id start_id : ℕ) : List NewAnn × ℕ :=
  required.foldl (collect_tile_step images anns tile_size win_image_id)
    ([], start_id)

/-- The generated window file name `f"{z}_{x}_{y}_w{offset_x}_{offset_y}.png"`
(line 435). -/
def window_filename (z x y offset_x offset_y : ℤ) : String :=
  s!"{z}_{x}_{y}_w{offset_x}_{offset_y}.png"

/-- Phase 2 inner body: process one `(original tile, offset)` pair
(lines 366–454).  Collect surviving annotations first; skip (counting only)
when none survive; then composite, skipping when a required tile is missing
or unreadable; otherwise save the window image and append the records,
committing the temporary annotation ids. -/
def process_offset (images : List SrcImage) (anns : List SrcAnn)
    (readable : ℤ × ℤ × ℤ → Bool) (tile_size : ℤ) (z x y : ℤ)
    (off : ℤ × ℤ) (st : RunState) : RunState :=
  let required := get_required_tiles z x y off.1 off.2 tile_size
  let collected := collect_window_annotations images anns required tile_size
    st.new_image_id st.new_annotation_id
  if collected.1.isEmpty then
    { st with windows_skipped := st.windows_skipped + 1 }
  else
    match create_window_image readable z x y off.1 off.2 tile_size with
    | none => { st with windows_skipped := st.windows_skipped + 1 }
    | some _ =>
      let wname := window_filename z x y off.1 off.2
      { st with
        files := st.files ++ [wname]
        windows_created := st.windows_created + 1
        new_images := st.new_images ++
          [{ id := st.new_image_id
             file_name := wname
             width := tile_size
             height := tile_size }]
        new_annotation_id := collected.2
        annotations_created := st.annotations_created + collected.1.length
        new_annotations := st.new_annotations ++ collected.1
        new_image_id := st.new_image_id + 1 }

/-- Phase 2 outer body: one original image and every offset (lines 353–454).
A filename that fails to parse skips the image with a warning. -/
def process_image_windows (images : List SrcImage) (anns : List SrcAnn)
    (readable : ℤ × ℤ × ℤ → Bool) (tile_size : ℤ) (offsets : List (ℤ × ℤ))
    (st : RunState) (img : SrcImage) : RunState :=
  match img.coords? with
  | none => st
  | some (z, x, y) =>
    offsets.foldl (fun s off =>
      process_offset images anns readable tile_size z x y off s) st

/-- The initial run state (lines 290–299). -/
def initial_state : RunState :=
  { new_images := []
    new_annotations := []
    new_image_id := 1
    new_annotation_id := 1
    originals_copied := 0
    windows_created := 0
    windows_skipped := 0
    annotations_created := 0
    files := [] }

/-- `process_sliding_windows` (`backend/sliding_window.py` lines 222–479):
`none` models the early return when the corpus has no images (no output is
written).  The tile size is the width of the first image; phase 1 copies the
originals, phase 2 generates the windows. -/
def process_sliding_windows (stride : ℤ) (coco : CocoData)
    (src_exists : String → Bool) (readable : ℤ × ℤ × ℤ → Bool) :
    Option RunState :=
  match coco.images with
  | [] => none
  | img0 :: _ =>
    let tile_size := img0.width
    let offsets := generate_window_offsets tile_size stride
    let st1 := coco.images.foldl
      (copy_original_step src_exists coco.anns) initial_state
    let st2 := coco.images.foldl
      (process_image_windows coco.images coco.anns readable tile_size offsets)
      st1
    some st2

/-- The merged manifest persisted at the end of a run (lines 456–470). -/
structure Manifest where
  images : List NewImage
  anns : List NewAnn
  categories : List Category
deriving DecidableEq

/-- The manifest written from a final run state (categories carried through
unchanged). -/
def output_manifest (st : RunState) (categories : List Category) : Manifest :=
  { images := st.new_images
    anns := st.new_annotations
    categories := categories }

/-! ## Tile downloader (`backend/tile_downloader.py`) -/

/-- A tile address. -/
structure Tile where
  z : ℤ
  x : ℤ
  y : ℤ
deriving DecidableEq

/-- The outcome of issuing the HTTP request for one tile: a status code, or a
transport error (the `except Exception` branch) with its message. -/
inductive HttpOutcome where
  | status (code : ℤ)
  | failure (msg : String)
deriving DecidableEq

/-- `TileDownloadResult` (`backend/tile_downloader.py` lines 24–32). -/
structure TileDownloadResult where
  tile : Tile
  success : Bool
  filepath : Option String := none
  error : Option String := none
  skipped : Bool := false
deriving DecidableEq

/-- `DownloadProgress` (`backend/tile_downloader.py` lines 12–21). -/
structure DownloadProgress where
  total : ℕ
  completed : ℕ
  failed : ℕ
  skipped : ℕ
  current_tile : Option String
  error : Option String
deriving DecidableEq

/-- The destination file name `f"{tile.z}_{tile.x}_{tile.y}.png"` (line 60). -/
def tile_filename (t : Tile) : String :=
  let z := t.z
  let x := t.x
  let y := t.y
  s!"{z}_{x}_{y}.png"

/-- The `current_tile` label `f"{tile.z}/{tile.x}/{tile.y}"` (line 151). -/
def tile_key (t : Tile) : String :=
  let z := t.z
  let x := t.x
  let y := t.y
  s!"{z}/{x}/{y}"

/-- `download_single_tile` (lines 51–96): skip when the destination exists and
`skip_existing` is set; otherwise the result is success exactly for HTTP 200,
and any non-success status or raised exception is absorbed into a failure
result with a reason string — never propagated. -/
def download_single_tile (file_on_disk : String → Bool)
    (fetch : Tile → HttpOutcome) (output_dir : String) (skip_existing : Bool)
    (tile : Tile) : TileDownloadResult :=
  let fpath := output_dir ++ "/" ++ tile_filename tile
  if skip_existing && file_on_disk fpath then
    { tile := tile, success := true, filepath := some fpath, skipped := true }
  else
    match fetch tile with
    | .status code =>
      if code = 200 then
        { tile := tile, success := true, filepath := some fpath }
      else
        { tile := tile, success := false,
          error := some ("HTTP " ++ toString code) }
    | .failure msg =>
      { tile := tile, success := false, error := some msg }

/-- The per-completion loop of `download_tiles_with_progress` (lines 138–153):
one snapshot per result, emitted immediately after that result is known, with
`completed` incremented for every result and `failed`/`skipped` incremented
according to the result. -/
def progress_updates (total : ℕ) :
    ℕ → ℕ → ℕ → List TileDownloadResult → List DownloadProgress
  | _, _, _, [] => []
  | completed, failed, skipped, r :: rest =>
    let completed' := completed + 1
    let failed' := if !r.success then failed + 1 else failed
    let skipped' :=
      if !r.success then skipped
      else if r.skipped then skipped + 1 else skipped
    { total := total
      completed := completed'
      failed := failed'
      skipped := skipped'
      current_tile := some (tile_key r.tile)
      error := r.error } :: progress_updates total completed' failed' skipped' rest

/-- `download_tiles_with_progress` (lines 99–153): an initial all-zero
snapshot, then one snapshot per tile in completion order.  The
nondeterministic `asyncio.as_completed` order is the `completion_order`
argument; each tile's result is `download_single_tile`. -/
def download_tiles_with_progress (file_on_disk : String → Bool)
    (fetch : Tile → HttpOutcome) (output_dir : String) (skip_existing : Bool)
    (tiles : List Tile) (completion_order : List Tile) :
    List DownloadProgress :=
  let total := tiles.length
  { total := total, completed := 0, failed := 0, skipped := 0,
    current_tile := none, error := none } ::
    progress_updates total 0 0 0
      (completion_order.map
        (download_single_tile file_on_disk fetch output_dir skip_existing))

/-- Number of failed results in a list. -/
def failed_count (rs : List TileDownloadResult) : ℕ :=
  rs.countP (fun r => !r.success)

/-- Number of skipped results in a list (a result is counted skipped only when
it is also successful, mirroring the `elif` at line 143). -/
def skipped_count (rs : List TileDownloadResult) : ℕ :=
  rs.countP (fun r => r.success && r.skipped)

/-- One server-sent event of the `/download-tiles` route
(`backend/export.py` lines 212–235). -/
inductive SseEvent where
  | progress (p : DownloadProgress)
  | complete
deriving DecidableEq

/-- `generate_events` (`backend/export.py` lines 212–235): every progress
snapshot in order, terminated by exactly one completion marker. -/
def generate_events (file_on_disk : String → Bool)
    (fetch : Tile → HttpOutcome) (output_dir : String) (skip_existing : Bool)
    (tiles : List Tile) (completion_order : List Tile) : List SseEvent :=
  (download_tiles_with_progress file_on_disk fetch output_dir skip_existing
      tiles completion_order).map SseEvent.progress ++ [SseEvent.complete]

/-! ## Concurrency model for the semaphore-gated fan-out

`download_tiles_with_progress` creates one task per tile; each task either
skips without touching the semaphore (lines 63–70) or executes
`async with semaphore` around its HTTP request (lines 74–96), where the
semaphore is `asyncio.Semaphore(max_concurrent)` (line 109).  The interleaving
semantics is modelled as a step relation: a pending task may complete
immediately as a skip, or acquire a permit (only when one is free) and go
in flight, and an in-flight task may finish, releasing its permit. -/

/-- The phase of one tile task. -/
inductive TaskPhase where
  | pending
  | inflight
  | done
deriving DecidableEq

/-- A scheduler state: free semaphore permits and the phase of every task. -/
structure FetcherState where
  permits : ℕ
  tasks : List TaskPhase
deriving DecidableEq

/-- Number of requests currently in flight. -/
def count_inflight (ts : List TaskPhase) : ℕ :=
  ts.countP (fun t => t == TaskPhase.inflight)

/-- The initial state: `n` pending tasks gated by `max_concurrent` permits. -/
def fetcher_init (max_concurrent n : ℕ) : FetcherState :=
  { permits := max_concurrent, tasks := List.replicate n TaskPhase.pending }

/-- One scheduler step.  `skips i = true` means task `i` takes the
skip-existing fast path, which completes without a semaphore permit. -/
inductive FetcherStep (skips : ℕ → Bool) : FetcherState → FetcherState → Prop
  | skip_tile (i : ℕ) (s : FetcherState)
      (hi : s.tasks[i]? = some TaskPhase.pending) (hs : skips i = true) :
      FetcherStep skips s ⟨s.permits, s.tasks.set i TaskPhase.done⟩
  | acquire (i : ℕ) (s : FetcherState)
      (hi : s.tasks[i]? = some TaskPhase.pending) (hs : skips i = false)
      (hp : 0 < s.permits) :
      FetcherStep skips s ⟨s.permits - 1, s.tasks.set i TaskPhase.inflight⟩
  | release (i : ℕ) (s : FetcherState)
      (hi : s.tasks[i]? = some TaskPhase.inflight) :
      FetcherStep skips s ⟨s.permits + 1, s.tasks.set i TaskPhase.done⟩

/-- The image-id bookkeeping invariant of a run state: the image records
carry exactly the ids `1..len` in order and the counter is the next free id. -/
def img_ids_ok (s : RunState) : Prop :=
  s.new_image_id = s.new_images.length + 1 ∧
  s.new_images.map (fun r => r.id) = List.range' 1 s.new_images.length

/-- The annotation-id bookkeeping invariant of a run state. -/
def ann_ids_ok (s : RunState) : Prop :=
  s.new_annotation_id = s.new_annotations.length + 1 ∧
  s.new_annotations.map (fun r => r.id) = List.range' 1 s.new_annotations.length

/-- Both id invariants. -/
def ids_ok (s : RunState) : Prop := img_ids_ok s ∧ ann_ids_ok s

/-- Invariant of the window-annotation collection accumulator: the records
collected so far carry exactly the ids `start, start+1, …` in order and the
temporary counter is the next free id. -/
def collect_ids_ok (start : ℕ) (acc : List NewAnn × ℕ) : Prop :=
  acc.2 = start + acc.1.length ∧
  acc.1.map (fun r => r.id) = List.range' start acc.1.length

/-- A small concrete corpus used to instantiate theorems: two labeled
neighboring tiles of size 2 with one annotation each. -/
def demo_coco : CocoData :=
  { images :=
      [{ id := 1, basename := "1_0_0.png", coords? := some (1, 0, 0),
         width := 2, height := 2 },
       { id := 7, basename := "1_1_0.png", coords? := some (1, 1, 0),
         width := 2, height := 2 }]
    anns :=
      [{ id := 1, image_id := 1, category_id := 5, bbox := (0, 0, 2, 2),
         seg? := some [[0, 0]], area? := some 4, iscrowd? := some 0,
         noun_phrase? := some "car" },
       { id := 2, image_id := 7, category_id := 5, bbox := (1, 1, 1, 1),
         seg? := some [[1, 1]], area? := some 1, iscrowd? := some 0,
         noun_phrase? := some "car" }]
    categories := [{ id := 5, name := "car" }] }

/-- The final state of a run over `demo_coco` with `stride = tileSize = 2`
(so the planner yields no offsets and only originals are copied). -/
def demo_state : RunState :=
  (process_sliding_windows 2 demo_coco (fun _ => true)
    (fun _ => true)).getD initial_state

/-- Three concrete tiles for downloader scenarios. -/
def demo_tiles : List Tile := [⟨1, 0, 0⟩, ⟨1, 1, 0⟩, ⟨1, 2, 0⟩]

/-! ## Theorems -/

theorem fmax_eq_max (a b : ℚ) : fmax a b = max a b := by
  rw [fmax, max_def]

theorem fmin_eq_min (a b : ℚ) : fmin a b = min a b := by
  rw [fmin, min_def]

theorem ite_flip {α : Type} {P Q : Prop} [Decidable P] [Decidable Q]
    (x : α) (h : Q ↔ ¬ P) :
    (if P then (none : Option α) else some x) =
      (if Q then some x else none) := by
  by_cases hP : P
  · rw [if_pos hP, if_neg (by rw [h]; exact not_not_intro hP)]
  · rw [if_neg hP, if_pos (h.mpr hP)]

/-- Claim C2: the retargeter translates a collected bbox by the contributing
tile's placement offset and clips it exactly as the specification words it
(`x1=max(0,x)`, `y1=max(0,y)`, `x2=min(T,x+w)`, `y2=min(T,y+h)`, keep
`[x1,y1,x2-x1,y2-y1]` iff `x2>x1` and `y2>y1`), and in particular for
`T = 256`, base-tile bbox `[200,200,40,40]` and offset `(128,128)` it returns
`[72,72,40,40]` unclipped. -/
theorem translate_and_clip_matches_spec :
    (∀ (b : ℚ × ℚ × ℚ × ℚ) (offset_x offset_y tile_size : ℤ),
      translate_and_clip_bbox b offset_x offset_y tile_size =
        retarget_spec b offset_x offset_y tile_size)
    ∧ translate_and_clip_bbox (200, 200, 40, 40) 128 128 256 =
        some (200 - 128, 200 - 128, 40, 40)
    ∧ translate_and_clip_bbox (200, 200, 40, 40) 128 128 256 =
        some (72, 72, 40, 40) := by
  refine ⟨fun b ox oy T => ?_, ?_, ?_⟩
  · simp only [translate_and_clip_bbox, retarget_spec]
    exact ite_flip _ (by rw [not_or, not_le, not_le])
  · norm_num [translate_and_clip_bbox, fmax, fmin]
  · norm_num [translate_and_clip_bbox, fmax, fmin]

/-- An already-clipped box, written by its corners `(a, b)`-`(c, d)` inside
`[0,T]x[0,T]` with positive extent, is a fixed point of
`translate_and_clip_bbox` at zero offset. -/
theorem clip_zero_fixed (a b c d : ℚ) (T : ℤ)
    (ha : 0 ≤ a) (hb : 0 ≤ b) (hc : c ≤ (T : ℚ)) (hd : d ≤ (T : ℚ))
    (hac : a < c) (hbd : b < d) :
    translate_and_clip_bbox (a, b, c - a, d - b) 0 0 T =
      some (a, b, c - a, d - b) := by
  simp only [translate_and_clip_bbox, Int.cast_zero, sub_zero]
  rw [show a + (c - a) = c from by ring, show b + (d - b) = d from by ring]
  rw [fmax_eq_max, fmax_eq_max, fmin_eq_min, fmin_eq_min,
    max_eq_right ha, max_eq_right hb, min_eq_right hc, min_eq_right hd]
  rw [if_neg (by push_neg; exact ⟨hac, hbd⟩)]

/-- Claim C8: clipping is idempotent - re-clipping an output of
`translate_and_clip_bbox` with zero translation offset against the same
window bounds returns it unchanged and never discards it. -/
theorem translate_and_clip_idempotent (b : ℚ × ℚ × ℚ × ℚ) (ox oy T : ℤ)
    (r : ℚ × ℚ × ℚ × ℚ)
    (h : translate_and_clip_bbox b ox oy T = some r) :
    translate_and_clip_bbox r 0 0 T = some r := by
  rcases b with ⟨bx, b_y, bw, bh⟩
  simp only [translate_and_clip_bbox] at h
  split_ifs at h with hcond
  rw [Option.some_inj] at h
  push_neg at hcond
  subst h
  exact clip_zero_fixed _ _ _ _ T
    (by rw [fmax_eq_max]; exact le_max_left 0 _)
    (by rw [fmax_eq_max]; exact le_max_left 0 _)
    (by rw [fmin_eq_min]; exact min_le_left _ _)
    (by rw [fmin_eq_min]; exact min_le_left _ _)
    hcond.1 hcond.2

/-- Witness for C8 at the spec scenario: `[72,72,40,40]`, the clipped output
for bbox `[200,200,40,40]` at offset `(128,128)` in a 256-window, re-clips to
itself. -/
theorem translate_and_clip_idempotent_witness :
    translate_and_clip_bbox (72, 72, 40, 40) 0 0 256 = some (72, 72, 40, 40) :=
  translate_and_clip_idempotent (200, 200, 40, 40) 128 128 256 (72, 72, 40, 40)
    (by norm_num [translate_and_clip_bbox, fmax, fmin])

/-- For a positive divisor, the rounded-up integer quotient `(T + S - 1) / S`
is the ceiling of the exact quotient. -/
theorem ceil_div_int (T S : ℤ) (hS : 0 < S) :
    ⌈(T : ℚ) / (S : ℚ)⌉ = (T + S - 1) / S := by
  have hSQ : (0 : ℚ) < (S : ℚ) := by exact_mod_cast hS
  have hmod := Int.ediv_add_emod (T + S - 1) S
  have hr0 : 0 ≤ (T + S - 1) % S := Int.emod_nonneg _ hS.ne'
  have hrS : (T + S - 1) % S < S := Int.emod_lt_of_pos _ hS
  have hcomm : S * ((T + S - 1) / S) = ((T + S - 1) / S) * S := mul_comm _ _
  rw [Int.ceil_eq_iff]
  constructor
  · rw [lt_div_iff₀ hSQ]
    have h : ((T + S - 1) / S - 1) * S < T := by
      have := hmod
      nlinarith [hmod, hr0, hrS]
    exact_mod_cast h
  · rw [div_le_iff₀ hSQ]
    have h : (T : ℤ) ≤ ((T + S - 1) / S) * S := by
      nlinarith [hmod, hr0, hrS]
    exact_mod_cast h

theorem length_filterMap_range_drop_zero {α : Type} (n : ℕ) (g : ℕ → α) :
    ((List.range n).filterMap
      (fun i => if i = 0 then none else some (g i))).length = n - 1 := by
  induction n with
  | zero => simp
  | succ m ih =>
    rw [List.range_succ, List.filterMap_append, List.length_append, ih]
    rcases Nat.eq_zero_or_pos m with hm | hm
    · subst hm
      rfl
    · have hne : ¬ (m = 0) := by omega
      rw [show List.filterMap (fun i => if i = 0 then none else some (g i)) [m]
          = [g m] from by simp [List.filterMap_cons, hne]]
      simp only [List.length_singleton]
      omega

theorem length_filterMap_range_all {α : Type} (n : ℕ) (g : ℕ → α) :
    ((List.range n).filterMap (fun i => some (g i))).length = n := by
  induction n with
  | zero => rfl
  | succ m ih =>
    rw [List.range_succ, List.filterMap_append, List.length_append, ih]
    rfl

/-- The number of cells of an `n × n` grid with the `(0,0)` cell removed. -/
theorem length_grid {α : Type} (n : ℕ) (f : ℕ → ℕ → α) (hn : 1 ≤ n) :
    ((List.range n).flatMap (fun j => (List.range n).filterMap (fun i =>
      if i = 0 ∧ j = 0 then none else some (f i j)))).length = n ^ 2 - 1 := by
  rw [List.length_flatMap]
  simp only [Function.comp_def]
  have hrow : ∀ j, ((List.range n).filterMap (fun i =>
      if i = 0 ∧ j = 0 then none else some (f i j))).length =
      if j = 0 then n - 1 else n := by
    intro j
    by_cases hj : j = 0
    · subst hj
      rw [if_pos rfl]
      rw [show (fun i => if i = 0 ∧ (0 : ℕ) = 0 then none else some (f i 0)) =
          (fun i => if i = 0 then none else some (f i 0)) from by
        funext i; simp]
      exact length_filterMap_range_drop_zero n (fun i => f i 0)
    · rw [if_neg hj]
      rw [show (fun i => if i = 0 ∧ j = 0 then none else some (f i j)) =
          (fun i => some (f i j)) from by funext i; simp [hj]]
      exact length_filterMap_range_all n (fun i => f i j)
  rw [List.map_congr_left (fun j _ => hrow j)]
  obtain ⟨m, hm⟩ : ∃ m, n = m + 1 := ⟨n - 1, by omega⟩
  subst hm
  rw [List.range_succ_eq_map, List.map_cons, List.map_map]
  rw [List.map_congr_left (g := fun _ => m + 1) (fun j _ => by
    simp [Function.comp, Nat.succ_ne_zero])]
  rw [List.sum_cons, if_pos rfl]
  rw [show ((List.range m).map (fun _ => m + 1)).sum = m * (m + 1) from by
    simp [List.map_const']]
  have h2 : (m + 1) ^ 2 = m + m * (m + 1) + 1 := by ring
  rw [h2, Nat.add_sub_cancel, Nat.add_sub_cancel]

/-- Claim C4: for `1 ≤ S ≤ T` the planner returns exactly the offsets
`(dx, dy)` with `dx, dy` multiples of `S` in `[0, T)`, excluding `(0,0)`, in
row-major order (`dy` outer, `dx` inner); the count is `⌈T/S⌉² - 1`; and for
`S = T` the list is empty. -/
theorem generate_window_offsets_spec (T S : ℤ) (hS1 : 1 ≤ S) (hST : S ≤ T) :
    ((((T + S - 1) / S).toNat : ℤ) = ⌈(T : ℚ) / (S : ℚ)⌉)
    ∧ generate_window_offsets T S =
        (List.range ((T + S - 1) / S).toNat).flatMap (fun (j : ℕ) =>
          (List.range ((T + S - 1) / S).toNat).filterMap (fun (i : ℕ) =>
            if i = 0 ∧ j = 0 then none
            else some (((i : ℤ) * S, (j : ℤ) * S))))
    ∧ (generate_window_offsets T S).length = ((T + S - 1) / S).toNat ^ 2 - 1
    ∧ (∀ p : ℤ × ℤ, p ∈ generate_window_offsets T S ↔
        (S ∣ p.1 ∧ S ∣ p.2 ∧ 0 ≤ p.1 ∧ p.1 < T ∧ 0 ≤ p.2 ∧ p.2 < T ∧
          p ≠ (0, 0)))
    ∧ (S = T → generate_window_offsets T S = []) := by
  have hS0 : (0 : ℤ) < S := by omega
  have hq0 : 0 ≤ (T + S - 1) / S := Int.ediv_nonneg (by omega) (by omega)
  have hcast : ((((T + S - 1) / S).toNat : ℤ)) = (T + S - 1) / S :=
    Int.toNat_of_nonneg hq0
  have hmod := Int.ediv_add_emod (T + S - 1) S
  have hr0 : 0 ≤ (T + S - 1) % S := Int.emod_nonneg _ hS0.ne'
  have hrS : (T + S - 1) % S < S := Int.emod_lt_of_pos _ hS0
  have hub : T ≤ ((T + S - 1) / S) * S := by nlinarith [hmod, hr0, hrS]
  have hlb : ((T + S - 1) / S - 1) * S < T := by nlinarith [hmod, hr0, hrS]
  have hq1 : 1 ≤ (T + S - 1) / S := by
    rw [Int.le_ediv_iff_mul_le hS0]; omega
  have hn1 : 1 ≤ ((T + S - 1) / S).toNat := by omega
  have hcanon : generate_window_offsets T S =
      (List.range ((T + S - 1) / S).toNat).flatMap (fun (j : ℕ) =>
        (List.range ((T + S - 1) / S).toNat).filterMap (fun (i : ℕ) =>
          if i = 0 ∧ j = 0 then none
          else some (((i : ℤ) * S, (j : ℤ) * S)))) := by
    unfold generate_window_offsets pyRangeUp
    rw [List.flatMap_map]
    refine List.flatMap_congr (fun j hj => ?_)
    rw [List.filterMap_map]
    refine List.filterMap_congr (fun i hi => ?_)
    refine if_congr ?_ rfl rfl
    constructor
    · rintro ⟨h1, h2⟩
      rcases mul_eq_zero.mp h1 with h | h
      · rcases mul_eq_zero.mp h2 with h' | h'
        · exact ⟨by exact_mod_cast h, by exact_mod_cast h'⟩
        · omega
      · omega
    · rintro ⟨h1, h2⟩
      subst h1; subst h2; simp
  refine ⟨by rw [hcast, ceil_div_int T S hS0], hcanon, ?_, ?_, ?_⟩
  · rw [hcanon]
    exact length_grid _ _ hn1
  · intro p
    rw [hcanon]
    simp only [List.mem_flatMap, List.mem_filterMap, List.mem_range]
    constructor
    · rintro ⟨j, hj, i, hi, hfi⟩
      by_cases hij : i = 0 ∧ j = 0
      · rw [if_pos hij] at hfi
        exact absurd hfi (by simp)
      · rw [if_neg hij, Option.some_inj] at hfi
        subst hfi
        have hiq : (i : ℤ) < (T + S - 1) / S := by omega
        have hjq : (j : ℤ) < (T + S - 1) / S := by omega
        have hiT : (i : ℤ) * S < T := by
          have h1 : (i : ℤ) * S ≤ ((T + S - 1) / S - 1) * S :=
            mul_le_mul_of_nonneg_right (by omega) (by omega)
          omega
        have hjT : (j : ℤ) * S < T := by
          have h1 : (j : ℤ) * S ≤ ((T + S - 1) / S - 1) * S :=
            mul_le_mul_of_nonneg_right (by omega) (by omega)
          omega
        refine ⟨dvd_mul_left S (i : ℤ), dvd_mul_left S (j : ℤ),
          mul_nonneg (Int.natCast_nonneg i) (by omega), hiT,
          mul_nonneg (Int.natCast_nonneg j) (by omega), hjT, ?_⟩
        intro heq
        rw [Prod.ext_iff] at heq
        obtain ⟨h1, h2⟩ := heq
        simp only at h1 h2
        rcases mul_eq_zero.mp h1 with h | h
        · rcases mul_eq_zero.mp h2 with h' | h'
          · exact hij ⟨by exact_mod_cast h, by exact_mod_cast h'⟩
          · omega
        · omega
    · rintro ⟨⟨k1, hk1⟩, ⟨k2, hk2⟩, h01, h1T, h02, h2T, hne⟩
      have hk10 : 0 ≤ k1 := by
        by_contra hneg
        push_neg at hneg
        nlinarith
      have hk20 : 0 ≤ k2 := by
        by_contra hneg
        push_neg at hneg
        nlinarith
      have hk1q : k1 < (T + S - 1) / S := by
        by_contra hge
        push_neg at hge
        nlinarith
      have hk2q : k2 < (T + S - 1) / S := by
        by_contra hge
        push_neg at hge
        nlinarith
      have hc1 : ((k1.toNat : ℤ)) = k1 := Int.toNat_of_nonneg hk10
      have hc2 : ((k2.toNat : ℤ)) = k2 := Int.toNat_of_nonneg hk20
      refine ⟨k2.toNat, by omega, k1.toNat, by omega, ?_⟩
      rw [if_neg ?_, Option.some_inj]
      · rw [Prod.ext_iff]
        exact ⟨by simp only; rw [hc1, hk1, mul_comm],
          by simp only; rw [hc2, hk2, mul_comm]⟩
      · rintro ⟨hz1, hz2⟩
        apply hne
        rw [Prod.ext_iff]
        constructor
        · rw [hk1]
          have : k1 = 0 := by omega
          simp [this]
        · rw [hk2]
          have : k2 = 0 := by omega
          simp [this]
  · intro hTS
    subst hTS
    have h1 : (S + S - 1) / S = 1 := by
      have hle : 1 ≤ (S + S - 1) / S := by
        rw [Int.le_ediv_iff_mul_le hS0]; omega
      have hlt : (S + S - 1) / S < 2 := by
        rw [Int.ediv_lt_iff_lt_mul hS0]; omega
      omega
    rw [hcanon, show ((S + S - 1) / S).toNat = 1 from by omega]
    rfl

/-- Witness for C4 at the spec scenario `stride = tileSize = 256`: the planner
yields zero offsets. -/
theorem generate_window_offsets_spec_witness :
    generate_window_offsets 256 256 = [] :=
  (generate_window_offsets_spec 256 256 (by norm_num) (by norm_num)).2.2.2.2 rfl

/-- Claim C1: for every tile size `T` and offset `(dx, dy)` with
`0 ≤ dx, dy < T`, the candidate chunks of `create_window_image` are exactly
the four of the claim (base crop `(dx,dy,T,T)` pasted at `(0,0)`, east crop
`(0,dy,dx,T)` at `(T-dx,0)`, south crop `(dx,0,T,dy)` at `(0,T-dy)`, diagonal
crop `(0,0,dx,dy)` at `(T-dx,T-dy)`); the base is always pasted, the east one
exactly when `dx > 0`, the south one exactly when `dy > 0`, the diagonal one
exactly when `dx > 0` and `dy > 0` (zero-width or zero-height crops are
omitted); and every output pixel of the `T × T` window is covered by exactly
one pasted chunk — no gap, no overlap. -/
theorem window_chunks_tile_exactly (x y dx dy T : ℤ)
    (hdx0 : 0 ≤ dx) (hdxT : dx < T) (hdy0 : 0 ≤ dy) (hdyT : dy < T) :
    window_chunks x y dx dy T =
      [⟨x, y, dx, dy, T, T, 0, 0⟩,
       ⟨x + 1, y, 0, dy, dx, T, T - dx, 0⟩,
       ⟨x, y + 1, dx, 0, T, dy, 0, T - dy⟩,
       ⟨x + 1, y + 1, 0, 0, dx, dy, T - dx, T - dy⟩]
    ∧ chunk_kept ⟨x, y, dx, dy, T, T, 0, 0⟩ = true
    ∧ (chunk_kept ⟨x + 1, y, 0, dy, dx, T, T - dx, 0⟩ = true ↔ 0 < dx)
    ∧ (chunk_kept ⟨x, y + 1, dx, 0, T, dy, 0, T - dy⟩ = true ↔ 0 < dy)
    ∧ (chunk_kept ⟨x + 1, y + 1, 0, 0, dx, dy, T - dx, T - dy⟩ = true ↔
        0 < dx ∧ 0 < dy)
    ∧ ∀ u v : ℤ, 0 ≤ u → u < T → 0 ≤ v → v < T →
        (window_chunks x y dx dy T).countP
          (fun c => chunk_kept c && chunk_covers c u v) = 1 := by
  refine ⟨rfl, ?_, ?_, ?_, ?_, ?_⟩
  · simp only [chunk_kept, Bool.and_eq_true, decide_eq_true_eq]
    omega
  · simp only [chunk_kept, Bool.and_eq_true, decide_eq_true_eq]
    omega
  · simp only [chunk_kept, Bool.and_eq_true, decide_eq_true_eq]
    omega
  · simp only [chunk_kept, Bool.and_eq_true, decide_eq_true_eq]
  · intro u v hu0 huT hv0 hvT
    simp only [window_chunks, chunk_kept, chunk_covers,
      List.countP_cons, List.countP_nil, Bool.and_eq_true, decide_eq_true_eq]
    split_ifs <;> omega

/-- Witness for C1 at `T = 4`, `(dx, dy) = (1, 2)`: output pixel `(3, 1)` is
covered by exactly one pasted chunk. -/
theorem window_chunks_tile_exactly_witness :
    (window_chunks 5 7 1 2 4).countP
      (fun c => chunk_kept c && chunk_covers c 3 1) = 1 :=
  (window_chunks_tile_exactly 5 7 1 2 4 (by norm_num) (by norm_num)
    (by norm_num) (by norm_num)).2.2.2.2.2 3 1
    (by norm_num) (by norm_num) (by norm_num) (by norm_num)

theorem foldl_preserves {α β : Type _} (P : β → Prop) (f : β → α → β)
    (hstep : ∀ b a, P b → P (f b a)) :
    ∀ (l : List α) (b : β), P b → P (l.foldl f b) := by
  intro l
  induction l with
  | nil => intro b hb; exact hb
  | cons a l ih => intro b hb; exact ih _ (hstep b a hb)

theorem range'_snoc (s n : ℕ) :
    List.range' s (n + 1) = List.range' s n ++ [s + n] := by
  have h : List.range' s (n + 1) 1 = List.range' s n 1 ++ [s + 1 * n] :=
    List.range'_concat s n
  simpa using h

theorem collect_ann_step_ok (T : ℤ) (wid : ℕ) (toff : ℤ × ℤ) (start : ℕ) :
    ∀ (acc : List NewAnn × ℕ) (a : SrcAnn), collect_ids_ok start acc →
      collect_ids_ok start (collect_ann_step T wid toff acc a) := by
  rintro acc a ⟨h1, h2⟩
  unfold collect_ann_step
  cases htr : translate_and_clip_bbox a.bbox toff.1 toff.2 T with
  | none => exact ⟨h1, h2⟩
  | some nb =>
    constructor
    · simp only [List.length_append, List.length_singleton]
      omega
    · simp only [List.map_append, List.map_cons, List.map_nil,
        List.length_append, List.length_singleton]
      rw [h2, h1, range'_snoc]

theorem collect_tile_step_ok (images : List SrcImage) (anns : List SrcAnn)
    (T : ℤ) (wid start : ℕ) :
    ∀ (acc : List NewAnn × ℕ) (rt : SourceChunkRef), collect_ids_ok start acc →
      collect_ids_ok start (collect_tile_step images anns T wid acc rt) := by
  intro acc rt h
  unfold collect_tile_step
  cases tile_to_image_id images (rt.z, rt.tx, rt.ty) with
  | none => exact h
  | some tid =>
    exact foldl_preserves _ _
      (collect_ann_step_ok T wid (placement_offset rt) start) _ acc h

theorem collect_window_annotations_ok (images : List SrcImage)
    (anns : List SrcAnn) (required : List SourceChunkRef) (T : ℤ)
    (wid start : ℕ) :
    collect_ids_ok start
      (collect_window_annotations images anns required T wid start) := by
  unfold collect_window_annotations
  exact foldl_preserves _ _ (collect_tile_step_ok images anns T wid start)
    required ([], start) ⟨by simp, rfl⟩

theorem range'_append_one (s m n : ℕ) :
    List.range' s m ++ List.range' (s + m) n = List.range' s (m + n) := by
  have h := List.range'_append s m n 1
  simpa [Nat.add_comm] using h

theorem copy_ann_step_inv (wid : ℕ) (X : List NewImage) (k : ℕ) :
    ∀ (s : RunState) (a : SrcAnn),
      (s.new_images = X ∧ s.new_image_id = k ∧ ann_ids_ok s) →
      ((copy_ann_step wid s a).new_images = X ∧
        (copy_ann_step wid s a).new_image_id = k ∧
        ann_ids_ok (copy_ann_step wid s a)) := by
  rintro s a ⟨h1, h2, h3, h4⟩
  refine ⟨h1, h2, ?_, ?_⟩
  · simp only [copy_ann_step, List.length_append, List.length_singleton]
    omega
  · simp only [copy_ann_step, List.map_append, List.map_cons, List.map_nil,
      List.length_append, List.length_singleton]
    rw [h4, h3, range'_snoc]
    simp [Nat.add_comm]

theorem copy_original_step_ok (src_exists : String → Bool)
    (anns : List SrcAnn) :
    ∀ (st : RunState) (img : SrcImage), ids_ok st →
      ids_ok (copy_original_step src_exists anns st img) := by
  rintro st img ⟨⟨hi1, hi2⟩, ha⟩
  unfold copy_original_step
  by_cases hex : src_exists img.basename
  · rw [if_pos hex]
    dsimp only
    have hfold := foldl_preserves
      (fun s : RunState => s.new_images = st.new_images ++
          [{ id := st.new_image_id, file_name := img.basename,
             width := img.width, height := img.height }] ∧
        s.new_image_id = st.new_image_id ∧ ann_ids_ok s)
      (copy_ann_step st.new_image_id)
      (copy_ann_step_inv st.new_image_id _ _)
      (anns_of anns img.id)
      { st with
        files := st.files ++ [img.basename]
        originals_copied := st.originals_copied + 1
        new_images := st.new_images ++
          [{ id := st.new_image_id, file_name := img.basename,
             width := img.width, height := img.height }] }
      ⟨rfl, rfl, ha⟩
    obtain ⟨hf1, hf2, hf3, hf4⟩ := hfold
    refine ⟨⟨?_, ?_⟩, ?_, ?_⟩
    · dsimp only
      rw [hf1]
      simp only [List.length_append, List.length_singleton]
      omega
    · dsimp only
      rw [hf1]
      simp only [List.map_append, List.map_cons, List.map_nil,
        List.length_append, List.length_singleton]
      rw [hi2, hi1, range'_snoc]
      simp [Nat.add_comm]
    · exact hf3
    · exact hf4
  · rw [if_neg hex]
    exact ⟨⟨hi1, hi2⟩, ha⟩

theorem process_offset_ok (images : List SrcImage) (anns : List SrcAnn)
    (readable : ℤ × ℤ × ℤ → Bool) (tile_size z x y : ℤ) (off : ℤ × ℤ) :
    ∀ st, ids_ok st →
      ids_ok (process_offset images anns readable tile_size z x y off st) := by
  rintro st ⟨⟨hi1, hi2⟩, ha1, ha2⟩
  unfold process_offset
  dsimp only
  by_cases hempty : (collect_window_annotations images anns
      (get_required_tiles z x y off.1 off.2 tile_size) tile_size
      st.new_image_id st.new_annotation_id).1.isEmpty
  · rw [if_pos hempty]
    exact ⟨⟨hi1, hi2⟩, ha1, ha2⟩
  · rw [if_neg hempty]
    cases hcw : create_window_image readable z x y off.1 off.2 tile_size with
    | none => exact ⟨⟨hi1, hi2⟩, ha1, ha2⟩
    | some w =>
      obtain ⟨hc1, hc2⟩ := collect_window_annotations_ok images anns
        (get_required_tiles z x y off.1 off.2 tile_size) tile_size
        st.new_image_id st.new_annotation_id
      refine ⟨⟨?_, ?_⟩, ?_, ?_⟩
      · dsimp only
        simp only [List.length_append, List.length_singleton]
        omega
      · dsimp only
        simp only [List.map_append, List.map_cons, List.map_nil,
          List.length_append, List.length_singleton]
        rw [hi2, hi1, range'_snoc]
        simp [Nat.add_comm]
      · dsimp only
        simp only [List.length_append]
        omega
      · dsimp only
        simp only [List.map_append, List.length_append]
        rw [ha2, hc2, ha1]
        rw [show st.new_annotations.length + 1 =
          1 + st.new_annotations.length from Nat.add_comm _ _]
        exact range'_append_one 1 st.new_annotations.length _

theorem process_image_windows_ok (images : List SrcImage) (anns : List SrcAnn)
    (readable : ℤ × ℤ × ℤ → Bool) (tile_size : ℤ) (offsets : List (ℤ × ℤ)) :
    ∀ (st : RunState) (img : SrcImage), ids_ok st →
      ids_ok (process_image_windows images anns readable tile_size offsets
        st img) := by
  intro st img h
  unfold process_image_windows
  cases img.coords? with
  | none => exact h
  | some c =>
    obtain ⟨z, x, y⟩ := c
    exact foldl_preserves _ _
      (fun b a hb => process_offset_ok images anns readable tile_size z x y a b hb)
      offsets st h

/-- Helper shared by C7 and C10: when the surviving-annotation set for a
window is empty, or the composite cannot be built, `process_offset` only
increments the skip counter — every other field of the state, including both
id counters, the record lists and the written files, is unchanged. -/
theorem process_offset_skip (images : List SrcImage) (anns : List SrcAnn)
    (readable : ℤ × ℤ × ℤ → Bool) (tile_size z x y : ℤ) (off : ℤ × ℤ)
    (st : RunState)
    (h : (collect_window_annotations images anns
        (get_required_tiles z x y off.1 off.2 tile_size) tile_size
        st.new_image_id st.new_annotation_id).1.isEmpty = true
      ∨ create_window_image readable z x y off.1 off.2 tile_size = none) :
    process_offset images anns readable tile_size z x y off st =
      { st with windows_skipped := st.windows_skipped + 1 } := by
  unfold process_offset
  dsimp only
  rcases h with h | h
  · rw [if_pos h]
  · by_cases he : (collect_window_annotations images anns
        (get_required_tiles z x y off.1 off.2 tile_size) tile_size
        st.new_image_id st.new_annotation_id).1.isEmpty
    · rw [if_pos he]
    · rw [if_neg he, h]

/-- Claim C7: a window whose surviving translated-and-clipped annotation set
is empty is pruned entirely — the skip counter is incremented and nothing
else changes (no image composited, written or recorded, id counters
untouched); the conclusion holds for **every** tile-readability oracle, so
the pruning happens strictly before any compositing or source-tile access. -/
theorem empty_window_pruned (images : List SrcImage) (anns : List SrcAnn)
    (tile_size z x y : ℤ) (off : ℤ × ℤ) (st : RunState)
    (h : (collect_window_annotations images anns
        (get_required_tiles z x y off.1 off.2 tile_size) tile_size
        st.new_image_id st.new_annotation_id).1 = []) :
    ∀ readable : ℤ × ℤ × ℤ → Bool,
      process_offset images anns readable tile_size z x y off st =
        { st with windows_skipped := st.windows_skipped + 1 } :=
  fun readable =>
    process_offset_skip images anns readable tile_size z x y off st
      (Or.inl (by rw [h]; rfl))

/-- Witness for C7: with no labeled tiles at all the surviving set is empty
and the window is pruned with only the skip counter changing. -/
theorem empty_window_pruned_witness :
    process_offset [] [] (fun _ => false) 2 0 0 0 (1, 0) initial_state =
      { initial_state with windows_skipped := 1 } :=
  empty_window_pruned [] [] 2 0 0 0 (1, 0) initial_state rfl (fun _ => false)

/-- Claim C10: skipping a window — because no annotations survive
retargeting, or because the composite cannot be built from the source
tiles — is atomic: no image record, no annotation record and no file is
added, and both id counters are unchanged (the tentatively assigned
annotation ids are discarded), so skipped windows cannot introduce id gaps. -/
theorem skipped_window_atomic (images : List SrcImage) (anns : List SrcAnn)
    (readable : ℤ × ℤ × ℤ → Bool) (tile_size z x y : ℤ) (off : ℤ × ℤ)
    (st : RunState)
    (h : (collect_window_annotations images anns
        (get_required_tiles z x y off.1 off.2 tile_size) tile_size
        st.new_image_id st.new_annotation_id).1 = []
      ∨ create_window_image readable z x y off.1 off.2 tile_size = none) :
    process_offset images anns readable tile_size z x y off st =
      { st with windows_skipped := st.windows_skipped + 1 } :=
  process_offset_skip images anns readable tile_size z x y off st
    (h.imp (fun he => by rw [he]; rfl) id)

/-- Witness for C10: a labeled window whose composite is unbuildable (no
tile is readable) is skipped atomically. -/
theorem skipped_window_atomic_witness :
    process_offset
      [{ id := 1, basename := "1_0_0.png", coords? := some (1, 0, 0),
         width := 2, height := 2 }]
      [{ id := 1, image_id := 1, category_id := 5, bbox := (0, 0, 2, 2),
         seg? := some [[0, 0]], area? := some 4, iscrowd? := some 0,
         noun_phrase? := some "car" }]
      (fun _ => false) 2 1 0 0 (1, 0) initial_state =
      { initial_state with windows_skipped := 1 } :=
  skipped_window_atomic _ _ (fun _ => false) 2 1 0 0 (1, 0) initial_state
    (Or.inr rfl)

/-- Claim C3: after a full `process_sliding_windows` run, the image ids in
the output are exactly `1..number of images` in order, and the annotation ids
are exactly `1..number of annotations` in order — contiguous, duplicate-free
and monotonically increasing across copied originals and generated windows
combined. -/
theorem assembler_ids_contiguous (stride : ℤ) (coco : CocoData)
    (src_exists : String → Bool) (readable : ℤ × ℤ × ℤ → Bool)
    (st : RunState)
    (h : process_sliding_windows stride coco src_exists readable = some st) :
    st.new_images.map (fun r => r.id) = List.range' 1 st.new_images.length ∧
    st.new_annotations.map (fun r => r.id) =
      List.range' 1 st.new_annotations.length := by
  unfold process_sliding_windows at h
  cases hc : coco.images with
  | nil =>
    rw [hc] at h
    exact absurd h (by simp)
  | cons img0 rest =>
    rw [hc] at h
    dsimp only at h
    rw [Option.some_inj] at h
    subst h
    have h0 : ids_ok initial_state := ⟨⟨rfl, rfl⟩, rfl, rfl⟩
    have h1 := foldl_preserves _ _ (copy_original_step_ok src_exists coco.anns)
      (img0 :: rest) initial_state h0
    have h2 := foldl_preserves _ _
      (process_image_windows_ok (img0 :: rest) coco.anns readable img0.width
        (generate_window_offsets img0.width stride))
      (img0 :: rest) _ h1
    exact ⟨h2.1.2, h2.2.2⟩

/-- Witness for C3: the run over `demo_coco` yields image ids `[1, 2]` and
annotation ids `[1, 2]`. -/
theorem assembler_ids_contiguous_witness :
    demo_state.new_images.map (fun r => r.id) =
        List.range' 1 demo_state.new_images.length ∧
      demo_state.new_annotations.map (fun r => r.id) =
        List.range' 1 demo_state.new_annotations.length :=
  assembler_ids_contiguous 2 demo_coco (fun _ => true) (fun _ => true)
    demo_state rfl

theorem range'_cons (s n : ℕ) :
    List.range' s (n + 1) = s :: List.range' (s + 1) n :=
  List.range'_succ s n 1

theorem download_single_tile_tile (fod : String → Bool)
    (fetch : Tile → HttpOutcome) (od : String) (se : Bool) (t : Tile) :
    (download_single_tile fod fetch od se t).tile = t := by
  unfold download_single_tile
  dsimp only
  split_ifs with h
  · rfl
  · cases fetch t with
    | status code =>
      dsimp only
      split_ifs <;> rfl
    | failure m => rfl

theorem download_single_tile_failure_reason (fod : String → Bool)
    (fetch : Tile → HttpOutcome) (od : String) (se : Bool) (t : Tile) :
    (download_single_tile fod fetch od se t).success = false →
    (download_single_tile fod fetch od se t).error ≠ none := by
  unfold download_single_tile
  dsimp only
  split_ifs with h
  · intro hs
    simp at hs
  · cases fetch t with
    | status code =>
      dsimp only
      split_ifs with hc
      · intro hs
        simp at hs
      · intro _
        simp
    | failure m =>
      intro _
      simp

theorem progress_updates_length (total : ℕ) :
    ∀ (rs : List TileDownloadResult) (c f k : ℕ),
      (progress_updates total c f k rs).length = rs.length := by
  intro rs
  induction rs with
  | nil => intro c f k; rfl
  | cons r rest ih =>
    intro c f k
    simp only [progress_updates, List.length_cons]
    rw [ih]

theorem progress_updates_map_completed (total : ℕ) :
    ∀ (rs : List TileDownloadResult) (c f k : ℕ),
      (progress_updates total c f k rs).map (fun p => p.completed) =
        List.range' (c + 1) rs.length := by
  intro rs
  induction rs with
  | nil => intro c f k; rfl
  | cons r rest ih =>
    intro c f k
    simp only [progress_updates, List.map_cons, List.length_cons]
    rw [ih, range'_cons]

theorem progress_updates_get (total : ℕ) :
    ∀ (rs : List TileDownloadResult) (c f k i : ℕ) (hi : i < rs.length),
      (progress_updates total c f k rs).get? i = some
        { total := total
          completed := c + i + 1
          failed := f + failed_count (rs.take (i + 1))
          skipped := k + skipped_count (rs.take (i + 1))
          current_tile := some (tile_key (rs.get ⟨i, hi⟩).tile)
          error := (rs.get ⟨i, hi⟩).error } := by
  intro rs
  induction rs with
  | nil => intro c f k i hi; exact absurd hi (by simp)
  | cons r rest ih =>
    intro c f k i hi
    cases i with
    | zero =>
      simp only [progress_updates, List.get?_cons_zero, Option.some_inj]
      cases hs : r.success <;> cases hk : r.skipped <;>
        simp [failed_count, skipped_count, List.countP_cons, hs, hk,
          List.take_succ_cons, List.take_zero, List.get]
    | succ j =>
      have hj : j < rest.length := by simpa using hi
      simp only [progress_updates, List.get?_cons_succ]
      rw [ih (c + 1) (if !r.success then f + 1 else f)
        (if !r.success then k else if r.skipped then k + 1 else k) j hj]
      simp only [Option.some_inj]
      cases hs : r.success <;> cases hk : r.skipped <;>
        simp [failed_count, skipped_count, List.countP_cons, hs, hk,
          List.take_succ_cons, List.get] <;> omega

theorem progress_updates_mono (total : ℕ) :
    ∀ (rs : List TileDownloadResult) (c f k : ℕ),
      List.Chain' (fun p q => p.failed ≤ q.failed ∧ p.skipped ≤ q.skipped)
        (progress_updates total c f k rs) ∧
      ∀ p ∈ progress_updates total c f k rs, f ≤ p.failed ∧ k ≤ p.skipped := by
  intro rs
  induction rs with
  | nil =>
    intro c f k
    constructor
    · exact List.chain'_nil
    · intro p hp
      exact absurd hp (by simp [progress_updates])
  | cons r rest ih =>
    intro c f k
    obtain ⟨ihc, ihm⟩ := ih (c + 1) (if !r.success then f + 1 else f)
      (if !r.success then k else if r.skipped then k + 1 else k)
    constructor
    · simp only [progress_updates]
      refine List.chain'_cons'.mpr ⟨?_, ihc⟩
      intro b hb
      exact ihm b (List.mem_of_mem_head? hb)
    · intro p hp
      simp only [progress_updates, List.mem_cons] at hp
      rcases hp with hp | hp
      · subst hp
        constructor <;> dsimp only <;> split_ifs <;> omega
      · obtain ⟨h1, h2⟩ := ihm p hp
        constructor
        · refine le_trans ?_ h1
          split_ifs <;> omega
        · refine le_trans ?_ h2
          split_ifs <;> omega

/-- Claim C5: for every tile list (with the nondeterministic completion order
abstracted as any permutation of it), the progress stream is the initial
all-zero snapshot followed by exactly one snapshot per tile, emitted right
after that tile's outcome with its key and error attached; the `completed`
values along the stream are exactly `0, 1, …, total`, so `completed` is
monotone and reaches `total` exactly once, at stream end; `failed` and
`skipped` are monotonically non-decreasing; and the SSE stream terminates
with exactly one completion marker after the snapshots. -/
theorem progress_stream_spec (fod : String → Bool) (fetch : Tile → HttpOutcome)
    (od : String) (se : Bool) (tiles completion_order : List Tile)
    (hperm : completion_order.Perm tiles) :
    generate_events fod fetch od se tiles completion_order =
        (download_tiles_with_progress fod fetch od se tiles
          completion_order).map SseEvent.progress ++ [SseEvent.complete]
    ∧ (download_tiles_with_progress fod fetch od se tiles
        completion_order).map (fun p => p.completed) =
        List.range (tiles.length + 1)
    ∧ List.Chain' (fun p q => p.failed ≤ q.failed)
        (download_tiles_with_progress fod fetch od se tiles completion_order)
    ∧ List.Chain' (fun p q => p.skipped ≤ q.skipped)
        (download_tiles_with_progress fod fetch od se tiles completion_order)
    ∧ ∀ (i : ℕ) (hi : i < completion_order.length),
        (download_tiles_with_progress fod fetch od se tiles
          completion_order).get? (i + 1) = some
          { total := tiles.length
            completed := i + 1
            failed := failed_count ((completion_order.take (i + 1)).map
              (download_single_tile fod fetch od se))
            skipped := skipped_count ((completion_order.take (i + 1)).map
              (download_single_tile fod fetch od se))
            current_tile := some (tile_key (completion_order.get ⟨i, hi⟩))
            error := (download_single_tile fod fetch od se
              (completion_order.get ⟨i, hi⟩)).error } := by
  have hlen : completion_order.length = tiles.length := hperm.length_eq
  refine ⟨rfl, ?_, ?_, ?_, ?_⟩
  · simp only [download_tiles_with_progress, List.map_cons]
    rw [progress_updates_map_completed, List.length_map, hlen,
      List.range_eq_range', range'_cons]
  · obtain ⟨hc, hm⟩ := progress_updates_mono tiles.length
      (completion_order.map (download_single_tile fod fetch od se)) 0 0 0
    simp only [download_tiles_with_progress]
    refine List.chain'_cons'.mpr
      ⟨fun b _ => Nat.zero_le _, hc.imp (fun a b hab => hab.1)⟩
  · obtain ⟨hc, hm⟩ := progress_updates_mono tiles.length
      (completion_order.map (download_single_tile fod fetch od se)) 0 0 0
    simp only [download_tiles_with_progress]
    refine List.chain'_cons'.mpr
      ⟨fun b _ => Nat.zero_le _, hc.imp (fun a b hab => hab.2)⟩
  · intro i hi
    have hi' : i < (completion_order.map
        (download_single_tile fod fetch od se)).length := by
      rw [List.length_map]; exact hi
    simp only [download_tiles_with_progress, List.get?_cons_succ]
    rw [progress_updates_get tiles.length _ 0 0 0 i hi']
    simp only [Option.some_inj, Nat.zero_add, List.get_map,
      download_single_tile_tile, List.map_take]

/-- Witness for C5 on three concrete tiles, all fetched successfully in input
order: the `completed` values along the stream are exactly `0, 1, 2, 3`. -/
theorem progress_stream_spec_witness :
    (download_tiles_with_progress (fun _ => false)
        (fun _ => HttpOutcome.status 200) "tiles" true demo_tiles
        demo_tiles).map (fun p => p.completed) =
      List.range (demo_tiles.length + 1) :=
  (progress_stream_spec (fun _ => false) (fun _ => HttpOutcome.status 200)
    "tiles" true demo_tiles demo_tiles (List.Perm.refl _)).2.1

/-- Claim C6: a single tile's failure (non-success HTTP status or transport
error) never aborts a batch and is never raised: every failing result carries
a reason string, every tile is still processed (`completed` reaches the batch
size) and failures are only aggregated into the `failed` counter; in
particular for 3 tiles where the middle one returns HTTP 404, the final
snapshot is `{total := 3, completed := 3, failed := 1, skipped := 0}`. -/
theorem tile_failure_isolated :
    (∀ (fod : String → Bool) (fetch : Tile → HttpOutcome) (od : String)
      (se : Bool) (tiles completion_order : List Tile),
      completion_order.Perm tiles →
      (∀ t ∈ completion_order,
        (download_single_tile fod fetch od se t).success = false →
        (download_single_tile fod fetch od se t).error ≠ none) ∧
      (download_tiles_with_progress fod fetch od se tiles
          completion_order).getLast?.map
          (fun p => (p.total, p.completed, p.failed, p.skipped)) =
        some (tiles.length, tiles.length,
          failed_count (completion_order.map
            (download_single_tile fod fetch od se)),
          skipped_count (completion_order.map
            (download_single_tile fod fetch od se))))
    ∧ (download_tiles_with_progress (fun _ => false)
        (fun t => if t = ⟨1, 1, 0⟩ then HttpOutcome.status 404
          else HttpOutcome.status 200)
        "tiles" true demo_tiles demo_tiles).getLast?.map
        (fun p => (p.total, p.completed, p.failed, p.skipped)) =
      some (3, 3, 1, 0) := by
  constructor
  · intro fod fetch od se tiles completion_order hperm
    have hlen : completion_order.length = tiles.length := hperm.length_eq
    constructor
    · intro t _ hs
      exact download_single_tile_failure_reason fod fetch od se t hs
    · cases hco : completion_order with
      | nil =>
        subst hco
        simp only [download_tiles_with_progress, List.map_nil]
        simp [progress_updates, failed_count, skipped_count, ← hlen]
      | cons t0 rest =>
        subst hco
        set rs := (t0 :: rest).map (download_single_tile fod fetch od se)
          with hrs
        have hrslen : rs.length = rest.length + 1 := by
          rw [hrs, List.length_map, List.length_cons]
        have hne : (download_tiles_with_progress fod fetch od se tiles
            (t0 :: rest)).length = rs.length + 1 := by
          simp only [download_tiles_with_progress, List.length_cons]
          rw [progress_updates_length]
        rw [List.getLast?_eq_get?, hne]
        have hidx : rs.length - 1 < rs.length := by omega
        have hstep : rs.length + 1 - 1 = (rs.length - 1) + 1 := by omega
        rw [hstep]
        simp only [download_tiles_with_progress, List.get?_cons_succ]
        rw [progress_updates_get tiles.length rs 0 0 0 (rs.length - 1) hidx]
        have htake : rs.take ((rs.length - 1) + 1) = rs := by
          rw [show (rs.length - 1) + 1 = rs.length from by omega,
            List.take_length]
        rw [htake]
        have hrT : rs.length = tiles.length := by
          rw [hrslen, ← hlen]
          simp
        simp only [Option.map_some', Option.some_inj, Prod.mk.injEq]
        exact ⟨trivial, by omega, by omega, by omega⟩
  · rfl

/-- Witness for C6's universally quantified part at a concrete all-success
batch of three tiles. -/
theorem tile_failure_isolated_witness :
    (download_tiles_with_progress (fun _ => false)
        (fun _ => HttpOutcome.status 200) "tiles" true demo_tiles
        demo_tiles).getLast?.map
        (fun p => (p.total, p.completed, p.failed, p.skipped)) =
      some (demo_tiles.length, demo_tiles.length,
        failed_count (demo_tiles.map (download_single_tile (fun _ => false)
          (fun _ => HttpOutcome.status 200) "tiles" true)),
        skipped_count (demo_tiles.map (download_single_tile (fun _ => false)
          (fun _ => HttpOutcome.status 200) "tiles" true))) :=
  (tile_failure_isolated.1 (fun _ => false) (fun _ => HttpOutcome.status 200)
    "tiles" true demo_tiles demo_tiles (List.Perm.refl _)).2

theorem countP_set {α : Type} (p : α → Bool) :
    ∀ (l : List α) (i : ℕ) (a b : α), l[i]? = some a →
      (l.set i b).countP p + (if p a then 1 else 0) =
        l.countP p + (if p b then 1 else 0) := by
  intro l
  induction l with
  | nil =>
    intro i a b h
    exact absurd h (by simp)
  | cons x l ih =>
    intro i a b h
    cases i with
    | zero =>
      simp only [List.getElem?_cons_zero, Option.some_inj] at h
      subst h
      simp only [List.set_cons_zero, List.countP_cons]
      omega
    | succ j =>
      simp only [List.getElem?_cons_succ] at h
      simp only [List.set_cons_succ, List.countP_cons]
      have := ih j a b h
      omega

theorem count_inflight_replicate (n : ℕ) :
    count_inflight (List.replicate n TaskPhase.pending) = 0 := by
  induction n with
  | zero => rfl
  | succ m ih =>
    simp only [List.replicate, count_inflight, List.countP_cons] at ih ⊢
    simpa using ih

/-- Along any interleaving of the semaphore-gated tasks, the free permits
plus the in-flight requests always total the semaphore size. -/
theorem fetcher_invariant (skips : ℕ → Bool) (N n : ℕ) (s : FetcherState)
    (h : Relation.ReflTransGen (FetcherStep skips) (fetcher_init N n) s) :
    s.permits + count_inflight s.tasks = N := by
  induction h with
  | refl =>
    simp [fetcher_init, count_inflight_replicate]
  | @tail b c _ step ih =>
    cases step with
    | skip_tile i t hi hs =>
      have hset := countP_set (fun x => x == TaskPhase.inflight) b.tasks i
        TaskPhase.pending TaskPhase.done hi
      simp at hset
      simp only [count_inflight] at ih ⊢
      omega
    | acquire i t hi hs hp =>
      have hset := countP_set (fun x => x == TaskPhase.inflight) b.tasks i
        TaskPhase.pending TaskPhase.inflight hi
      simp at hset
      simp only [count_inflight] at ih ⊢
      omega
    | release i t hi =>
      have hset := countP_set (fun x => x == TaskPhase.inflight) b.tasks i
        TaskPhase.inflight TaskPhase.done hi
      simp at hset
      simp only [count_inflight] at ih ⊢
      omega

/-- Claim C9: in every reachable scheduler state of a fetch run with
semaphore size `N`, at most `N` tile requests are in flight simultaneously —
each in-flight request holds one of the `N` permits. -/
theorem semaphore_bounds_inflight (skips : ℕ → Bool) (N n : ℕ)
    (s : FetcherState)
    (h : Relation.ReflTransGen (FetcherStep skips) (fetcher_init N n) s) :
    count_inflight s.tasks ≤ N := by
  have hinv := fetcher_invariant skips N n s h
  omega

/-- Witness for C9: after one task of two acquires the single permit, one
request is in flight, within the bound `N = 1`. -/
theorem semaphore_bounds_inflight_witness :
    count_inflight [TaskPhase.inflight, TaskPhase.pending] ≤ 1 :=
  semaphore_bounds_inflight (fun _ => false) 1 2
    ⟨0, [TaskPhase.inflight, TaskPhase.pending]⟩
    (Relation.ReflTransGen.single
      (FetcherStep.acquire 0 (fetcher_init 1 2) rfl rfl Nat.one_pos))

end LabelTiles
